import Mathlib

/-!
Shallow embedding of the Stage orchestrator (`core/Stage.js`) of the astrofox
repository, together with spec-modelled definitions for its external
collaborators (the Scene class, the Display base class, the `utils/array`
helpers, the component registries, the Composer and the backing pixel
buffers).  Side effects are made explicit: every stateful operation returns
the new state together with an ordered trace of the externally visible
effects it performed, plus an optional uncaught JavaScript error; when an
error is present the returned state reflects every mutation performed before
the throw.
-/

namespace Astrofox

/-- A JavaScript runtime error thrown by the embedded code (a property access
or method call on `undefined` or `null`). -/
inductive JsError where
  | typeError
deriving DecidableEq

/-- Color values are kept as their source strings; the renderer-native color
object produced by `new Color(c)` is modelled as the resolved string. -/
abbrev ColorVal := String

/-- Modelled from the spec: the property record of a Scene collaborator.  The
core only reads `enabled`; the remaining blend parameters (opacity, blend
mode, ...) are opaque to the core and collapsed into the single field
`blend`. -/
structure SceneProps where
  enabled : Bool
  blend : Nat
deriving DecidableEq

/-- Modelled from the spec: the Scene collaborator contract.  A Scene carries
a `stage` back-reference settable by the Stage (here: the owning Stage's id),
a dirty flag behind `hasChanges` / `resetChanges`, a size set by `setSize`,
and element / reactor lists filled by `addElement` / `setReactor` during
config load.  Each element is its component name paired with the reactor
keys attached to it. -/
structure Scene where
  id : Nat
  properties : SceneProps
  changed : Bool
  stage : Option Nat
  width : Nat
  height : Nat
  elements : List (String × List String)
  reactors : List String
deriving DecidableEq

/-- Modelled from the spec: `Scene.hasChanges` reports the scene's own dirty
state. -/
def Scene.hasChanges (s : Scene) : Bool :=
  s.changed

/-- Modelled from the spec: `Scene.resetChanges` clears the scene's dirty
state, so the scene reports no changes afterwards. -/
def Scene.resetChanges (s : Scene) : Scene :=
  { s with changed := false }

/-- Modelled from the spec: `Scene.setSize` adapts the scene to the new
stage size. -/
def Scene.setSize (s : Scene) (w h : Nat) : Scene :=
  { s with width := w, height := h }

/-- Modelled from the spec: `Scene.addElement` appends an instantiated
component to the scene and hands the element back (here: its index). -/
def Scene.addElement (s : Scene) (name : String) : Scene × Nat :=
  ({ s with elements := s.elements ++ [(name, [])] }, s.elements.length)

/-- Modelled from the spec: `setReactor` on an element attaches a reactor
handler under the given event key to the element at the given index. -/
def Scene.setElementReactor (s : Scene) (idx : Nat) (key : String) : Scene :=
  { s with
    elements := s.elements.enum.map fun p =>
      if p.1 = idx then (p.2.1, p.2.2 ++ [key]) else p.2 }

/-- Modelled from the spec: `Scene.setReactor` attaches a scene-level reactor
handler under the given event key. -/
def Scene.setReactor (s : Scene) (key : String) : Scene :=
  { s with reactors := s.reactors ++ [key] }

/-- The Composer collaborator, reduced to the state the Stage can change:
its size.  Its `clear`, `blendBuffer` and `renderToScreen` calls are recorded
in the effect trace. -/
structure Composer where
  width : Nat
  height : Nat
deriving DecidableEq

/-- A backing pixel buffer (`CanvasBuffer` / `GLBuffer`), reduced to its
size; its `setSize` call is recorded in the effect trace. -/
structure PixelBuffer where
  width : Nat
  height : Nat
deriving DecidableEq

/-- The externally visible effects a Stage operation can perform, in the
order they happen.  Hook invocations record what the hook observes at the
moment it runs: `sceneDetached` carries the scene's `stage` back-reference as
it is when `removeFromStage` is invoked. -/
inductive Event where
  | sceneResize (sceneId w h : Nat)
  | composerResize (w h : Nat)
  | canvasBufferResize (w h : Nat)
  | glBufferResize (w h : Nat)
  | stageResizeEmitted
  | zoomEmitted
  | sceneAttached (sceneId : Nat)
  | sceneDetached (sceneId : Nat) (stageRefAtHook : Option Nat)
  | displayCountWasReset
  | composerCleared (color : ColorVal) (alpha : Rat)
  | sceneRendered (sceneId frame : Nat)
  | bufferBlended (sceneId : Nat) (blendProps : SceneProps)
  | renderedToScreen
  | errorRaised (msg : String)
  | warnLogged (msg : String)
deriving DecidableEq

/-- The Stage's value property record `{width, height, zoom, backgroundColor}`. -/
structure StageProps where
  width : Nat
  height : Nat
  zoom : Rat
  backgroundColor : ColorVal
deriving DecidableEq

/-- Modelled from the spec: the built-in default canvas width constant
(`CANVAS_WIDTH` from `view/constants`). -/
def CANVAS_WIDTH : Nat := 854

/-- Modelled from the spec: the built-in default canvas height constant
(`CANVAS_HEIGHT` from `view/constants`). -/
def CANVAS_HEIGHT : Nat := 480

/-- Modelled from the spec: the constant root-stage type tag
(`DISPLAY_TYPE_STAGE` from `view/constants`). -/
def DISPLAY_TYPE_STAGE : String := "stage"

/-- Source: `Stage.defaultProperties`. -/
def stageDefaultProperties : StageProps :=
  { width := CANVAS_WIDTH
    height := CANVAS_HEIGHT
    zoom := 1
    backgroundColor := "#000000" }

/-- The Stage state.  The renderer, Composer, backing buffers and resolved
background color are `none` until `init` has allocated them; the source
dereferences them without a check, which the embedding renders as a
`typeError`. -/
structure Stage where
  id : Nat
  name : String
  properties : StageProps
  scenes : List Scene
  changed : Bool
  initialized : Bool
  composer : Option Composer
  canvasBuffer : Option PixelBuffer
  glBuffer : Option PixelBuffer
  backgroundColor : Option ColorVal
deriving DecidableEq

/-- The constant `type` tag installed by the constructor
(`Object.defineProperty(this, 'type', { value: DISPLAY_TYPE_STAGE })`). -/
def Stage.type (_ : Stage) : String := DISPLAY_TYPE_STAGE

/-- Modelled from the spec: the Display base-class constructor assigns
identity (`id`, `name`) and the property record; the Stage constructor then
sets an empty scene list and `initialized = false`, with no rendering
resources allocated yet. -/
def Stage.create (id : Nat) (name : String) (properties : StageProps) : Stage :=
  { id := id
    name := name
    properties := properties
    scenes := []
    changed := false
    initialized := false
    composer := none
    canvasBuffer := none
    glBuffer := none
    backgroundColor := none }

/-- Source `Stage.init` (lines 32–57): idempotent one-time resource acquisition.  A second call
while `initialized` is true is a no-op; the first call allocates the
Composer and both backing buffers at the current `properties.width/height`
and resolves the background color. -/
def Stage.init (s : Stage) : Stage :=
  if s.initialized then s
  else
    { s with
      composer := some ⟨s.properties.width, s.properties.height⟩
      canvasBuffer := some ⟨s.properties.width, s.properties.height⟩
      glBuffer := some ⟨s.properties.width, s.properties.height⟩
      backgroundColor := some s.properties.backgroundColor
      initialized := true }

/-- The result of a stateful Stage operation: the post-call state, the
ordered trace of externally visible effects, and an uncaught JS error when
the operation threw mid-way (the state then reflects every mutation that
happened before the throw). -/
structure Res where
  stage : Stage
  trace : List Event
  err : Option JsError
deriving DecidableEq

/-- A partial property record, the argument of `update`: `none` models a key
that is `undefined` (absent) on the JS argument object. -/
structure PartialProps where
  width : Option Nat
  height : Option Nat
  zoom : Option Rat
  backgroundColor : Option ColorVal
deriving DecidableEq

/-- The empty partial record (an update argument with no keys). -/
def PartialProps.empty : PartialProps :=
  ⟨none, none, none, none⟩

/-- A full property record viewed as an update argument with all four keys
present (as in `this.update(Stage.defaultProperties)`). -/
def StageProps.toPartial (p : StageProps) : PartialProps :=
  ⟨some p.width, some p.height, some p.zoom, some p.backgroundColor⟩

/-- Modelled from the spec: `Display.update` (the `super.update(properties)`
call).  Applies only the provided keys to the property record, decides
change by per-field equality, and returns the new record together with
whether anything actually changed. -/
def displayUpdate (p : StageProps) (u : PartialProps) : StageProps × Bool :=
  let p' : StageProps :=
    { width := u.width.getD p.width
      height := u.height.getD p.height
      zoom := u.zoom.getD p.zoom
      backgroundColor := u.backgroundColor.getD p.backgroundColor }
  (p', decide (p' ≠ p))

/-- JS `Array.prototype.indexOf`: the index of the first occurrence of the
value, `-1` when absent. -/
def jsIndexOf [DecidableEq α] : List α → α → Int
  | [], _ => -1
  | y :: ys, x =>
    if y = x then 0
    else
      let r := jsIndexOf ys x
      if r = -1 then -1 else r + 1

/-- Modelled from the spec: `insert` from `utils/array` — inserts the value
at the index, shifting the elements at and after that index one place
later. -/
def arrayInsert (xs : List α) (i : Nat) (x : α) : List α :=
  xs.take i ++ x :: xs.drop i

/-- Modelled from the spec: `remove` from `utils/array` — removes the first
occurrence of the value by identity; a no-op when the value is absent. -/
def arrayRemove [DecidableEq α] (xs : List α) (x : α) : List α :=
  xs.erase x

/-- Modelled from the spec: `swap` from `utils/array` — exchanges the
elements at the two indices when both are in range, otherwise a no-op. -/
def arraySwap (xs : List α) (i j : Int) : List α :=
  if 0 ≤ i ∧ i < (xs.length : Int) ∧ 0 ≤ j ∧ j < (xs.length : Int) then
    match xs[i.toNat]?, xs[j.toNat]? with
    | some a, some b => (xs.set i.toNat b).set j.toNat a
    | _, _ => xs
  else xs

/-- Source `Stage.setSize(width, height)` (lines 115–126): resizes every owned
scene in stored order, then the Composer, then the canvas buffer, then the
GL buffer, and finally emits the `stage-resize` notification.  On a Stage
where `init` has not run, the `this.composer.setSize` (or buffer) call
dereferences `undefined` and throws after the scenes were already
resized. -/
def Stage.setSize (s : Stage) (w h : Nat) : Res :=
  let s1 : Stage := { s with scenes := s.scenes.map fun sc => sc.setSize w h }
  let tr1 : List Event := s.scenes.map fun sc => Event.sceneResize sc.id w h
  match s1.composer with
  | none => ⟨s1, tr1, some JsError.typeError⟩
  | some _ =>
    let s2 : Stage := { s1 with composer := some ⟨w, h⟩ }
    let tr2 : List Event := tr1 ++ [Event.composerResize w h]
    match s2.canvasBuffer with
    | none => ⟨s2, tr2, some JsError.typeError⟩
    | some _ =>
      let s3 : Stage := { s2 with canvasBuffer := some ⟨w, h⟩ }
      let tr3 : List Event := tr2 ++ [Event.canvasBufferResize w h]
      match s3.glBuffer with
      | none => ⟨s3, tr3, some JsError.typeError⟩
      | some _ =>
        ⟨{ s3 with glBuffer := some ⟨w, h⟩ },
          tr3 ++ [Event.glBufferResize w h, Event.stageResizeEmitted], none⟩

/-- Source `Stage.update(properties)` (lines 59–73): runs `super.update`, and when
something changed propagates a resize if a `width`/`height` key was present
and re-resolves the background color if a `backgroundColor` key was present
(`this.backgroundColor.set(...)`, a throw when `init` has not run).  Returns
the result together with the `changed` boolean the source returns. -/
def Stage.update (s : Stage) (u : PartialProps) : Res × Bool :=
  let pc := displayUpdate s.properties u
  if pc.2 then
    let s1 : Stage := { s with properties := pc.1, changed := true }
    let afterSize : Res :=
      if u.width.isSome || u.height.isSome then
        s1.setSize s1.properties.width s1.properties.height
      else ⟨s1, [], none⟩
    let afterColor : Res :=
      match afterSize.err with
      | some e => ⟨afterSize.stage, afterSize.trace, some e⟩
      | none =>
        if u.backgroundColor.isSome then
          match afterSize.stage.backgroundColor with
          | none => ⟨afterSize.stage, afterSize.trace, some JsError.typeError⟩
          | some _ =>
            ⟨{ afterSize.stage with
                backgroundColor := some pc.1.backgroundColor },
              afterSize.trace, none⟩
        else afterSize
    (afterColor, true)
  else (⟨s, [], none⟩, false)

/-- Source `Stage.getScene(id)` (lines 75–77): linear lookup by id. -/
def Stage.getScene (s : Stage) (id : Nat) : Option Scene :=
  s.scenes.find? fun n => n.id == id

/-- Source `Stage.addScene(scene, index)` (lines 128–144): inserts at the index if
given, else appends; sets the scene's `stage` back-reference, invokes the
attach hook, marks the Stage dirty, and returns the scene.  In the source
the list holds the very object whose `stage` field is then assigned, so the
stored scene carries the back-reference. -/
def Stage.addScene (s : Stage) (scene : Scene) (index : Option Nat) :
    Res × Scene :=
  let scene' : Scene := { scene with stage := some s.id }
  let scenes' : List Scene :=
    match index with
    | some i => arrayInsert s.scenes i scene'
    | none => s.scenes ++ [scene']
  (⟨{ s with scenes := scenes', changed := true },
      [Event.sceneAttached scene.id], none⟩,
    scene')

/-- Source `Stage.removeScene(scene)` (lines 146–154): removes the scene by
identity, clears its `stage` back-reference, then invokes the
`removeFromStage` detach hook, and marks the Stage dirty.  The trace records
the back-reference the hook observes at the moment it runs: the source
clears it (line 149) before invoking the hook (line 151).  The returned
scene is the post-call scene object. -/
def Stage.removeScene (s : Stage) (scene : Scene) : Res × Scene :=
  let scenes' := arrayRemove s.scenes scene
  let scene' : Scene := { scene with stage := none }
  (⟨{ s with scenes := scenes', changed := true },
      [Event.sceneDetached scene'.id scene'.stage], none⟩,
    scene')

/-- Source `Stage.shiftScene(scene, i)` (lines 156–164): looks up the scene's
index, swaps it with the element at `index + i`, then unconditionally
overwrites `changed` with whether the scene's index actually changed, and
returns that boolean. -/
def Stage.shiftScene (s : Stage) (scene : Scene) (i : Int) : Stage × Bool :=
  let index := jsIndexOf s.scenes scene
  let scenes' := arraySwap s.scenes index (index + i)
  let moved := decide (jsIndexOf scenes' scene ≠ index)
  ({ s with scenes := scenes', changed := moved }, moved)

/-- Source `Stage.clearScenes()` (lines 166–172): removes every scene through the
same `removeScene` path (iterating over a snapshot copy of the list), resets
the process-wide display counter, and marks the Stage dirty. -/
def Stage.clearScenes (s : Stage) : Res :=
  let r : Res :=
    s.scenes.foldl
      (fun acc sc =>
        let r2 := (acc.stage.removeScene sc).1
        ⟨r2.stage, acc.trace ++ r2.trace, none⟩)
      ⟨s, [], none⟩
  ⟨{ r.stage with changed := true },
    r.trace ++ [Event.displayCountWasReset], none⟩

/-- Source `Stage.hasChanges()` (lines 182–196): true when the Stage's own flag is
set, else a scan over the scenes with a local accumulator. -/
def Stage.hasChanges (s : Stage) : Bool :=
  if s.changed then true
  else
    s.scenes.foldl
      (fun changes scene =>
        if !changes && scene.hasChanges then true else changes)
      false

/-- Source `Stage.resetChanges()` (lines 198–204): clears the Stage's flag and
resets every owned scene. -/
def Stage.resetChanges (s : Stage) : Stage :=
  { s with changed := false, scenes := s.scenes.map Scene.resetChanges }

/-- Source `Stage.setZoom(val)` (lines 206–222): positive direction adds 0.25 when
zoom < 1.0, negative subtracts 0.25 when zoom > 0.25, zero resets to 1.0;
each change routes through `update`, and the zoom notification is emitted
at the end of every call. -/
def Stage.setZoom (s : Stage) (val : Int) : Res :=
  let zoom := s.properties.zoom
  let r : Res :=
    if 0 < val then
      if zoom < 1 then
        (s.update { PartialProps.empty with zoom := some (zoom + 1/4) }).1
      else ⟨s, [], none⟩
    else if val < 0 then
      if 1/4 < zoom then
        (s.update { PartialProps.empty with zoom := some (zoom - 1/4) }).1
      else ⟨s, [], none⟩
    else
      (s.update { PartialProps.empty with zoom := some 1 }).1
  match r.err with
  | some e => ⟨r.stage, r.trace, some e⟩
  | none => ⟨r.stage, r.trace ++ [Event.zoomEmitted], none⟩

/-- The serialized Stage record `{id, name, type, properties}`. -/
structure StageJSON where
  id : Nat
  name : String
  type : String
  properties : StageProps
deriving DecidableEq

/-- Source `Stage.toJSON()` (lines 277–286): emits `{id, name, type, properties}`
with `properties` a shallow copy (`{ ...properties }`); in the embedding the
copy is the property value itself, which is independent of the live Stage by
construction. -/
def Stage.toJSON (s : Stage) : StageJSON :=
  ⟨s.id, s.name, s.type, s.properties⟩

/-- Modelled from the spec: reconstructing a Stage from a serialized record
restores `id`, `name` and the property record; `type` is the constant stage
tag and the reconstructed Stage starts with no scenes and no rendering
resources. -/
def Stage.fromJSON (j : StageJSON) : Stage :=
  Stage.create j.id j.name j.properties

/-- Source `Stage.renderScene(scene, data)` (lines 288–292): renders the scene into
a buffer and hands that buffer plus a copy of the scene's own property
record to the Composer's blend step. -/
def Stage.renderScene (_ : Stage) (scene : Scene) (data : Nat) : List Event :=
  [Event.sceneRendered scene.id data,
   Event.bufferBlended scene.id scene.properties]

/-- Source `Stage.render(data)` (lines 294–306): clears the Composer to the Stage's
background color at alpha 1, iterates the scenes in stored order rendering
and blending exactly those whose `enabled` property is true, then flushes
the Composer to the screen.  Without `init`, `composer.clear` dereferences
`undefined` and throws. -/
def Stage.render (s : Stage) (data : Nat) : Res :=
  match s.composer with
  | none => ⟨s, [], some JsError.typeError⟩
  | some _ =>
    let tr : List Event :=
      Event.composerCleared (s.backgroundColor.getD ("undefined")) 1 ::
        (s.scenes.map fun scene =>
          if scene.properties.enabled then s.renderScene scene data
          else []).flatten
        ++ [Event.renderedToScreen]
    ⟨s, tr, none⟩

/-- A component description inside a saved scene (`{name, properties,
reactors}`); its property record is opaque to the core. -/
structure ComponentConfig where
  name : String
  properties : Nat
  reactors : Option (List String)
deriving DecidableEq

/-- A saved scene description (`{properties, displays?, effects?,
reactors?}`). -/
structure SceneConfig where
  properties : SceneProps
  displays : Option (List ComponentConfig)
  effects : Option (List ComponentConfig)
  reactors : Option (List String)
deriving DecidableEq

/-- The saved stage block (`{properties}`). -/
structure StageConfigBlock where
  properties : PartialProps
deriving DecidableEq

/-- A well-formed configuration record (`{stage?, scenes?}`); `none` models
an absent key. -/
structure Config where
  scenes : Option (List SceneConfig)
  stage : Option StageConfigBlock
deriving DecidableEq

/-- The JavaScript value handed to `loadConfig`, classified by its runtime
type.  `typeof null` and `typeof []` are both `'object'` in JavaScript, so
those inputs pass the source's `typeof config === 'object'` check exactly
like real objects do. -/
inductive ConfigInput where
  | object (c : Config)
  | array (len : Nat)
  | jsNull
  | number (n : Int)
  | string (s : String)
  | boolean (b : Bool)
  | undef
deriving DecidableEq

/-- Whether JS `typeof` of the value is the string `'object'`. -/
def ConfigInput.typeofIsObject : ConfigInput → Bool
  | object _ => true
  | array _ => true
  | jsNull => true
  | _ => false

/-- Modelled from the spec: `new Scene(properties)` — a fresh, unattached
scene with the given property record and an auto-assigned identity drawn
from the process-wide display counter (which `clearScenes` has just reset,
so the scenes loaded by `loadConfig` are numbered from 1 in load order). -/
def newScene (id : Nat) (props : SceneProps) : Scene :=
  { id := id
    properties := props
    changed := false
    stage := none
    width := 0
    height := 0
    elements := []
    reactors := [] }

/-- Source: the `loadReactors(reactors, element)` closure applied to a scene-level element: each
key of the reactor map is attached to the element in order. -/
def loadElementReactors (sc : Scene) (idx : Nat) (keys : List String) :
    Scene :=
  keys.foldl (fun acc k => acc.setElementReactor idx k) sc

/-- The `loadComponent(lib, {name, properties, reactors})` closure of
`loadConfig` (lines 240–251): resolves the component name against the given
registry; on success instantiates it, adds it to the scene and attaches its
reactors; on failure logs a warning and skips it. -/
def loadComponent (lib : List String) (sc : Scene) (comp : ComponentConfig) :
    Scene × List Event :=
  if lib.contains comp.name then
    let p := sc.addElement comp.name
    let sc2 :=
      match comp.reactors with
      | some keys => loadElementReactors p.1 p.2 keys
      | none => p.1
    (sc2, [])
  else
    (sc, [Event.warnLogged ("Component not found: " ++ comp.name)])

/-- Loads one saved scene description (the body of the `config.scenes`
loop, lines 229–264).  In the source the fresh scene object is attached
first and then mutated in place while its displays, effects and reactors
load; since the Stage's list holds that same object, the final state is the
one with everything loaded, which the embedding obtains by loading the
scene fully and attaching the finished scene.  The trace keeps the source's
observable order: the attach hook fires before any component warning is
logged. -/
def loadSceneConfig (dLib eLib : List String) (acc : Res) (id : Nat)
    (scfg : SceneConfig) : Res :=
  let sc0 := newScene id scfg.properties
  let pd : Scene × List Event :=
    match scfg.displays with
    | some ds =>
      ds.foldl
        (fun p d =>
          let q := loadComponent dLib p.1 d
          (q.1, p.2 ++ q.2))
        (sc0, [])
    | none => (sc0, [])
  let pe : Scene × List Event :=
    match scfg.effects with
    | some es =>
      es.foldl
        (fun p e =>
          let q := loadComponent eLib p.1 e
          (q.1, p.2 ++ q.2))
        (pd.1, [])
    | none => (pd.1, [])
  let sc3 : Scene :=
    match scfg.reactors with
    | some keys => keys.foldl Scene.setReactor pe.1
    | none => pe.1
  let r := (acc.stage.addScene sc3 none).1
  ⟨r.stage, acc.trace ++ r.trace ++ pd.2 ++ pe.2, none⟩

/-- Source `Stage.loadConfig(config)` (lines 224–275).  The source guards with
`typeof config === 'object'`; a number, string, boolean or `undefined`
therefore takes the `raiseError('Invalid project data.')` branch with no
mutation, while an object, an array or `null` all pass the guard and reach
`this.clearScenes()`.  For a real object the saved scenes are loaded and the
stage block (or the defaults) is applied through `update`; for an array,
`config.scenes` and `config.stage` are `undefined`, so after the clear the
defaults are applied; for `null`, the `config.scenes` access itself throws a
TypeError — after the scene list was already cleared.  `dLib` and `eLib` are
the display and effect registries (external imports). -/
def Stage.loadConfig (dLib eLib : List String) (s : Stage)
    (config : ConfigInput) : Res :=
  match config with
  | ConfigInput.object c =>
    let r1 := s.clearScenes
    let r2 : Res :=
      match c.scenes with
      | some scfgs =>
        (scfgs.enum).foldl
          (fun acc p => loadSceneConfig dLib eLib acc (p.1 + 1) p.2) r1
      | none => r1
    let r3 : Res :=
      match c.stage with
      | some blk => (r2.stage.update blk.properties).1
      | none => (r2.stage.update stageDefaultProperties.toPartial).1
    ⟨r3.stage, r2.trace ++ r3.trace, r3.err⟩
  | ConfigInput.array _ =>
    let r1 := s.clearScenes
    let r3 := (r1.stage.update stageDefaultProperties.toPartial).1
    ⟨r3.stage, r1.trace ++ r3.trace, r3.err⟩
  | ConfigInput.jsNull =>
    let r1 := s.clearScenes
    ⟨r1.stage, r1.trace, some JsError.typeError⟩
  | _ => ⟨s, [Event.errorRaised ("Invalid project data.")], none⟩

/-- Whether an effect is a Composer blend step. -/
def Event.isBlend : Event → Bool
  | Event.bufferBlended _ _ => true
  | _ => false

/-- Whether an effect is a scene render-to-buffer step. -/
def Event.isSceneRender : Event → Bool
  | Event.sceneRendered _ _ => true
  | _ => false

/-- A concrete enabled scene, for concrete evaluations. -/
def demoScene : Scene :=
  { id := 1
    properties := { enabled := true, blend := 0 }
    changed := false
    stage := some 7
    width := 0
    height := 0
    elements := []
    reactors := [] }

/-- A concrete disabled scene, for concrete evaluations. -/
def demoSceneOff : Scene :=
  { id := 2
    properties := { enabled := false, blend := 5 }
    changed := false
    stage := some 7
    width := 0
    height := 0
    elements := []
    reactors := [] }

/-- A concrete un-initialized Stage owning one scene, with the default
properties. -/
def demoStage : Stage :=
  { Stage.create 7 ("stage") stageDefaultProperties with scenes := [demoScene] }

/-- A concrete Stage owning two scenes whose `changed` flag is set. -/
def dirtyStage : Stage :=
  { Stage.create 7 ("stage") stageDefaultProperties with
    scenes := [demoScene, demoSceneOff]
    changed := true }

/-- The demo Stage after `init`. -/
def initedStage : Stage :=
  demoStage.init

/-- An initialized Stage owning a disabled scene followed by an enabled
scene. -/
def renderStage : Stage :=
  { initedStage with scenes := [demoSceneOff, demoScene] }

/-! Helper lemmas about the embedded list primitives. -/

/-- The `hasChanges` accumulator scan is the disjunction of the start value
with the scenes' own change reports. -/
theorem foldl_changes_scan (xs : List Scene) (b : Bool) :
    xs.foldl
        (fun changes scene =>
          if !changes && scene.hasChanges then true else changes) b
      = (b || xs.any Scene.hasChanges) := by
  induction xs generalizing b with
  | nil => simp
  | cons x xs ih =>
    rw [List.foldl_cons, ih, List.any_cons]
    cases b <;> cases hx : x.hasChanges <;> simp [hx]

/-- Helper: `jsIndexOf` returns the position of a value that occurs there and
nowhere else. -/
theorem jsIndexOf_eq_of_uniq [DecidableEq α] (xs : List α) (x : α) (t : Nat)
    (ht : xs[t]? = some x) (hu : ∀ k, k ≠ t → xs[k]? ≠ some x) :
    jsIndexOf xs x = (t : Int) := by
  induction xs generalizing t with
  | nil => simp at ht
  | cons y ys ih =>
    cases t with
    | zero =>
      have hy : y = x := by simpa using ht
      simp [jsIndexOf, hy]
    | succ m =>
      have hy : y ≠ x := by
        intro h
        exact hu 0 (by omega) (by simp [h])
      have ht' : ys[m]? = some x := by simpa using ht
      have hu' : ∀ k, k ≠ m → ys[k]? ≠ some x := by
        intro k hk
        have h2 := hu (k + 1) (by omega)
        simpa using h2
      have hr := ih m ht' hu'
      have hne : ((m : Nat) : Int) ≠ -1 := by omega
      simp [jsIndexOf, hy, hr, hne]

/-- A member of a list has a `jsIndexOf` that is an actual position of it. -/
theorem jsIndexOf_mem_spec [DecidableEq α] (xs : List α) (x : α)
    (hx : x ∈ xs) :
    ∃ n : Nat, jsIndexOf xs x = (n : Int) ∧ xs[n]? = some x := by
  induction xs with
  | nil => simp at hx
  | cons y ys ih =>
    by_cases hy : y = x
    · exact ⟨0, by simp [jsIndexOf, hy], by simp [hy]⟩
    · have hx' : x ∈ ys := by
        rcases List.mem_cons.mp hx with h | h
        · exact absurd h.symm hy
        · exact h
      obtain ⟨n, hn, hget⟩ := ih hx'
      have hne : ((n : Nat) : Int) ≠ -1 := by omega
      refine ⟨n + 1, ?_, by simpa using hget⟩
      simp [jsIndexOf, hy, hn, hne]

/-- In a list without duplicates a value occurs at one position only. -/
theorem nodup_pos_uniq {xs : List α} (hnd : xs.Nodup) {n k : Nat} {x : α}
    (hn : xs[n]? = some x) (hk : xs[k]? = some x) : n = k := by
  rw [List.getElem?_eq_some] at hn hk
  obtain ⟨h1, e1⟩ := hn
  obtain ⟨h2, e2⟩ := hk
  exact (List.Nodup.getElem_inj_iff hnd).mp (e1.trans e2.symm)

/-- Writing back the element already at a position leaves the list
unchanged. -/
theorem list_set_self (l : List α) (n : Nat) (h : n < l.length) :
    l.set n l[n] = l := by
  apply List.ext_getElem?
  intro k
  rw [List.getElem?_set]
  split
  · next heq => subst heq; simp [h, List.getElem?_eq_getElem]
  · rfl

/-- Swapping the position holding `sc` with an in-range target position
moves `sc` there: in a duplicate-free list, the first occurrence of `sc`
after the swap is the target position. -/
theorem jsIndexOf_arraySwap {xs : List Scene} {sc : Scene} {n m : Nat}
    (hnd : xs.Nodup) (hget : xs[n]? = some sc) (hm : m < xs.length) :
    jsIndexOf (arraySwap xs (n : Int) (m : Int)) sc = (m : Int) := by
  have hnlen : n < xs.length := (List.getElem?_eq_some.mp hget).1
  have hbm : xs[m]? = some xs[m] := List.getElem?_eq_getElem hm
  have huniq : ∀ k, k ≠ n → xs[k]? ≠ some sc := by
    intro k hk hcontra
    exact hk (nodup_pos_uniq hnd hcontra hget)
  have hcond : (0 : Int) ≤ (n : Int) ∧ (n : Int) < (xs.length : Int) ∧
      (0 : Int) ≤ (m : Int) ∧ (m : Int) < (xs.length : Int) :=
    ⟨by omega, by omega, by omega, by omega⟩
  rw [arraySwap, if_pos hcond, Int.toNat_natCast, Int.toNat_natCast,
    hget, hbm]
  dsimp only
  by_cases hmn : m = n
  · subst hmn
    have hb : xs[m] = sc := by
      have := hbm.symm.trans hget
      exact Option.some.inj this
    have hself : xs.set m sc = xs := by
      rw [← hb]
      exact list_set_self xs m hm
    rw [List.set_set, hself]
    exact jsIndexOf_eq_of_uniq xs sc m hget huniq
  · apply jsIndexOf_eq_of_uniq
    · rw [List.getElem?_set_self]
      rw [List.length_set]
      exact hm
    · intro k hk
      rw [List.getElem?_set_ne (fun h => hk h.symm)]
      by_cases hkn : k = n
      · subst hkn
        rw [List.getElem?_set_self hnlen]
        intro hcontra
        have hbsc : xs[m] = sc := Option.some.inj hcontra
        exact hmn (nodup_pos_uniq hnd (hbsc ▸ hbm) hget)
      · rw [List.getElem?_set_ne (fun h => hkn h.symm)]
        exact huniq k hkn


/-- C2 (amended): for every Stage and owned scene, `shiftScene(scene, delta)`
swaps the scene with the element at `index + delta`; when the target index
is in range the scene ends up at the target position and the call returns
true exactly when `delta ≠ 0` (that is, exactly when the resulting index
differs from the original); `changed` always equals the returned boolean;
and when the target index is out of range the scene order is unchanged, the
call returns false, and `changed` is overwritten to false (so the call is
not a complete no-op when the Stage was dirty before). -/
theorem shiftScene_swap_spec (s : Stage) (sc : Scene) (delta : Int)
    (hmem : sc ∈ s.scenes) (hnd : s.scenes.Nodup) :
    ((s.shiftScene sc delta).1.scenes
        = arraySwap s.scenes (jsIndexOf s.scenes sc)
            (jsIndexOf s.scenes sc + delta)) ∧
    ((s.shiftScene sc delta).1.changed = (s.shiftScene sc delta).2) ∧
    ((s.shiftScene sc delta).2
        = decide (jsIndexOf (s.shiftScene sc delta).1.scenes sc
            ≠ jsIndexOf s.scenes sc)) ∧
    ((0 ≤ jsIndexOf s.scenes sc + delta ∧
        jsIndexOf s.scenes sc + delta < (s.scenes.length : Int)) →
      jsIndexOf (s.shiftScene sc delta).1.scenes sc
          = jsIndexOf s.scenes sc + delta ∧
        (s.shiftScene sc delta).2 = decide (delta ≠ 0)) ∧
    (¬ (0 ≤ jsIndexOf s.scenes sc + delta ∧
        jsIndexOf s.scenes sc + delta < (s.scenes.length : Int)) →
      (s.shiftScene sc delta).1.scenes = s.scenes ∧
        (s.shiftScene sc delta).2 = false ∧
        (s.shiftScene sc delta).1.changed = false) := by
  obtain ⟨n, hn, hget⟩ := jsIndexOf_mem_spec s.scenes sc hmem
  have hnlen : n < s.scenes.length := (List.getElem?_eq_some.mp hget).1
  refine ⟨rfl, rfl, rfl, ?_, ?_⟩
  · intro hr
    obtain ⟨hr0, hr1⟩ := hr
    set t : Int := jsIndexOf s.scenes sc + delta with hts
    have htm : t = ((t.toNat : Nat) : Int) := (Int.toNat_of_nonneg hr0).symm
    have hm : t.toNat < s.scenes.length := by omega
    have hswap : jsIndexOf (arraySwap s.scenes ((n : Nat) : Int)
        ((t.toNat : Nat) : Int)) sc = ((t.toNat : Nat) : Int) :=
      jsIndexOf_arraySwap hnd hget hm
    have hres : jsIndexOf (s.shiftScene sc delta).1.scenes sc = t := by
      show jsIndexOf (arraySwap s.scenes (jsIndexOf s.scenes sc) t) sc = t
      rw [hn, htm]
      exact hswap
    refine ⟨hres, ?_⟩
    show decide (jsIndexOf (arraySwap s.scenes (jsIndexOf s.scenes sc) t) sc
        ≠ jsIndexOf s.scenes sc) = decide (delta ≠ 0)
    have : jsIndexOf (arraySwap s.scenes (jsIndexOf s.scenes sc) t) sc = t :=
      hres
    rw [this, hn]
    apply decide_eq_decide.mpr
    constructor
    · intro hne h0
      exact hne (by rw [hts, hn, h0, add_zero])
    · intro hd0 heq
      rw [hts, hn] at heq
      exact hd0 (by omega)
  · intro hr
    have hcondneg : ¬ ((0:Int) ≤ jsIndexOf s.scenes sc ∧
        jsIndexOf s.scenes sc < (s.scenes.length : Int) ∧
        0 ≤ jsIndexOf s.scenes sc + delta ∧
        jsIndexOf s.scenes sc + delta < (s.scenes.length : Int)) := by
      intro hc
      exact hr ⟨hc.2.2.1, hc.2.2.2⟩
    have hsw : arraySwap s.scenes (jsIndexOf s.scenes sc)
        (jsIndexOf s.scenes sc + delta) = s.scenes := by
      rw [arraySwap, if_neg hcondneg]
    have hscenes : (s.shiftScene sc delta).1.scenes = s.scenes := hsw
    have hmoved : (s.shiftScene sc delta).2 = false := by
      show decide (jsIndexOf (arraySwap s.scenes (jsIndexOf s.scenes sc)
          (jsIndexOf s.scenes sc + delta)) sc ≠ jsIndexOf s.scenes sc) = false
      rw [hsw]
      simp
    exact ⟨hscenes, hmoved, hmoved⟩


/-- C2 counterexample: on a Stage whose `changed` flag is true, a
`shiftScene` call with an out-of-range target leaves the order unchanged and
returns false as claimed, but it is not a complete no-op: it overwrites
`changed` with false, so the post-call Stage differs from the pre-call
Stage. -/
theorem shiftScene_out_of_range_not_noop :
    (dirtyStage.shiftScene demoScene (-1)).1.scenes = dirtyStage.scenes ∧
    (dirtyStage.shiftScene demoScene (-1)).2 = false ∧
    dirtyStage.changed = true ∧
    (dirtyStage.shiftScene demoScene (-1)).1.changed = false ∧
    (dirtyStage.shiftScene demoScene (-1)).1 ≠ dirtyStage := by
  decide

/-- C2 witness: the amended theorem applied to a concrete two-scene Stage
and an in-range shift. -/
theorem shiftScene_swap_spec_witness :
    demoScene ∈ dirtyStage.scenes ∧ dirtyStage.scenes.Nodup ∧
    ((dirtyStage.shiftScene demoScene 1).1.changed
      = (dirtyStage.shiftScene demoScene 1).2) :=
  ⟨by decide, by decide,
    (shiftScene_swap_spec dirtyStage demoScene 1 (by decide) (by decide)).2.1⟩

/-- C9: after every `shiftScene` call the Stage's `changed` flag equals the
boolean the call returned, and a call whose swap leaves the scene's index
unchanged overwrites `changed` with false regardless of its prior value. -/
theorem shiftScene_overwrites_changed (s : Stage) (sc : Scene) (i : Int) :
    ((s.shiftScene sc i).1.changed = (s.shiftScene sc i).2) ∧
    (jsIndexOf (s.shiftScene sc i).1.scenes sc = jsIndexOf s.scenes sc →
      (s.shiftScene sc i).1.changed = false) := by
  refine ⟨rfl, ?_⟩
  intro h
  show decide (jsIndexOf (s.shiftScene sc i).1.scenes sc
      ≠ jsIndexOf s.scenes sc) = false
  rw [h]
  simp

/-- C9 witness: a concrete dirty Stage whose out-of-range shift erases the
previously recorded dirtiness. -/
theorem shiftScene_overwrites_changed_witness :
    dirtyStage.changed = true ∧
    (dirtyStage.shiftScene demoScene (-1)).1.changed = false :=
  ⟨by decide,
    (shiftScene_overwrites_changed dirtyStage demoScene (-1)).2 (by decide)⟩


/-- Helper: `update` with a zoom-only record carrying a genuinely new value applies
the zoom, marks the Stage dirty, emits nothing and throws nothing. -/
theorem update_zoom_changes (s : Stage) (z : Rat) (hne : z ≠ s.properties.zoom) :
    (s.update { PartialProps.empty with zoom := some z }).1 =
      { stage :=
          { s with
              properties := { s.properties with zoom := z }
              changed := true }
        trace := []
        err := none } := by
  have hp : ({ s.properties with zoom := z } : StageProps) ≠ s.properties := by
    intro h
    exact hne (congrArg StageProps.zoom h)
  simp [Stage.update, displayUpdate, PartialProps.empty, hp]

/-- Helper: `update` with a zoom-only record carrying the current value is a
complete no-op. -/
theorem update_zoom_noop (s : Stage) :
    (s.update { PartialProps.empty with zoom := some s.properties.zoom }).1
      = { stage := s
          trace := []
          err := none } := by
  have hp : ({ width := s.properties.width
               height := s.properties.height
               zoom := s.properties.zoom
               backgroundColor := s.properties.backgroundColor } : StageProps)
      = s.properties := rfl
  simp [Stage.update, displayUpdate, PartialProps.empty, hp]


/-- The zoom value after `setZoom`, by direction of the argument, and the
zoom notification present on every call. -/
theorem setZoom_zoom_value (s : Stage) (v : Int) :
    ((s.setZoom v).stage.properties.zoom =
      (if 0 < v then
        (if s.properties.zoom < 1 then s.properties.zoom + 1/4
         else s.properties.zoom)
       else if v < 0 then
        (if 1/4 < s.properties.zoom then s.properties.zoom - 1/4
         else s.properties.zoom)
       else 1)) ∧
    Event.zoomEmitted ∈ (s.setZoom v).trace := by
  rcases lt_trichotomy 0 v with hv | hv | hv
  · have hv' : ¬ v < 0 := by omega
    by_cases hlt : s.properties.zoom < 1
    · have hne : s.properties.zoom + 1/4 ≠ s.properties.zoom := by
        intro h
        linarith
      rw [Stage.setZoom, if_pos hv, if_pos hlt, update_zoom_changes s _ hne]
      simp [hv, hlt]
    · rw [Stage.setZoom, if_pos hv, if_neg hlt]
      simp [hv, hlt]
  · subst hv
    by_cases h1 : (1 : Rat) = s.properties.zoom
    · rw [Stage.setZoom, if_neg (lt_irrefl 0), if_neg (lt_irrefl 0), h1,
        update_zoom_noop]
      simp [← h1]
    · rw [Stage.setZoom, if_neg (lt_irrefl 0), if_neg (lt_irrefl 0),
        update_zoom_changes s 1 h1]
      simp
  · have hv' : ¬ 0 < v := by omega
    by_cases hgt : 1/4 < s.properties.zoom
    · have hne : s.properties.zoom - 1/4 ≠ s.properties.zoom := by
        intro h
        linarith
      rw [Stage.setZoom, if_neg hv', if_pos hv, if_pos hgt,
        update_zoom_changes s _ hne]
      rw [if_pos hgt]
      simp [hv, hv']
    · rw [Stage.setZoom, if_neg hv', if_pos hv, if_neg hgt]
      rw [if_neg hgt]
      simp [hv, hv']


/-- C3: starting from a zoom in \x7b0.25, 0.5, 0.75, 1.0\x7d, `setZoom` keeps the
zoom in that set; a positive argument adds 0.25 exactly when zoom < 1.0, a
negative argument subtracts 0.25 exactly when zoom > 0.25, a zero argument
yields exactly 1.0, and the zoom notification is emitted on every call
whether or not the value changed. -/
theorem setZoom_quarter_steps (s : Stage) (v : Int)
    (hz : s.properties.zoom = 1/4 ∨ s.properties.zoom = 1/2 ∨
      s.properties.zoom = 3/4 ∨ s.properties.zoom = 1) :
    ((s.setZoom v).stage.properties.zoom = 1/4 ∨
      (s.setZoom v).stage.properties.zoom = 1/2 ∨
      (s.setZoom v).stage.properties.zoom = 3/4 ∨
      (s.setZoom v).stage.properties.zoom = 1) ∧
    (0 < v → (s.setZoom v).stage.properties.zoom
        = (if s.properties.zoom < 1 then s.properties.zoom + 1/4
           else s.properties.zoom)) ∧
    (v < 0 → (s.setZoom v).stage.properties.zoom
        = (if 1/4 < s.properties.zoom then s.properties.zoom - 1/4
           else s.properties.zoom)) ∧
    (v = 0 → (s.setZoom v).stage.properties.zoom = 1) ∧
    Event.zoomEmitted ∈ (s.setZoom v).trace := by
  obtain ⟨hval, hmem⟩ := setZoom_zoom_value s v
  refine ⟨?_, ?_, ?_, ?_, hmem⟩
  · rw [hval]
    rcases lt_trichotomy 0 v with hv | hv | hv
    · rw [if_pos hv]
      rcases hz with h | h | h | h <;> rw [h] <;> norm_num
    · rw [if_neg (by omega : ¬ 0 < v), if_neg (by omega : ¬ v < 0)]
      norm_num
    · rw [if_neg (by omega : ¬ 0 < v), if_pos hv]
      rcases hz with h | h | h | h <;> rw [h] <;> norm_num
  · intro hv
    rw [hval, if_pos hv]
  · intro hv
    rw [hval, if_neg (by omega : ¬ 0 < v), if_pos hv]
  · intro hv
    subst hv
    rw [hval, if_neg (by omega : ¬ (0:Int) < 0), if_neg (by omega : ¬ (0:Int) < 0)]

/-- C3 witness: the theorem applied to a concrete Stage at zoom 1.0 with a
zero argument. -/
theorem setZoom_quarter_steps_witness :
    ((demoStage.setZoom 0).stage.properties.zoom = 1) ∧
    Event.zoomEmitted ∈ (demoStage.setZoom 0).trace := by
  have h := setZoom_quarter_steps demoStage 0 (Or.inr (Or.inr (Or.inr rfl)))
  exact ⟨h.2.2.2.1 rfl, h.2.2.2.2⟩

/-- C4: `hasChanges()` is true iff the Stage's own `changed` flag is true or
some owned scene reports changes (the scan is a pure function of the state);
`resetChanges()` clears the Stage flag and resets every owned scene, and
immediately afterwards `hasChanges()` is false. -/
theorem hasChanges_resetChanges_spec (s : Stage) :
    (s.hasChanges = (s.changed || s.scenes.any Scene.hasChanges)) ∧
    (s.resetChanges.changed = false) ∧
    (s.resetChanges.scenes = s.scenes.map Scene.resetChanges) ∧
    (s.resetChanges.hasChanges = false) := by
  refine ⟨?_, rfl, rfl, ?_⟩
  · rw [Stage.hasChanges, foldl_changes_scan]
    cases hc : s.changed <;> simp
  · have h2 : s.resetChanges.changed = false := rfl
    have h3 : s.resetChanges.scenes = s.scenes.map Scene.resetChanges := rfl
    rw [Stage.hasChanges, h2, h3, foldl_changes_scan]
    simp [List.any_map, Function.comp, Scene.resetChanges, Scene.hasChanges]

/-- C5: `removeScene(scene)` removes the scene by identity from the ordered
sequence, clears `scene.stage` to null, marks the Stage dirty, and the
detach hook observes a `stage` back-reference that is already null when it
runs. -/
theorem removeScene_clears_backref_before_detach (s : Stage) (sc : Scene)
    (_hmem : sc ∈ s.scenes) (hnd : s.scenes.Nodup) :
    ((s.removeScene sc).1.stage.scenes = s.scenes.erase sc) ∧
    (sc ∉ (s.removeScene sc).1.stage.scenes) ∧
    ((s.removeScene sc).2.stage = none) ∧
    ((s.removeScene sc).1.stage.changed = true) ∧
    ((s.removeScene sc).1.trace = [Event.sceneDetached sc.id none]) := by
  refine ⟨rfl, ?_, rfl, rfl, rfl⟩
  show sc ∉ arrayRemove s.scenes sc
  rw [arrayRemove]
  exact List.Nodup.not_mem_erase hnd

/-- C5 witness: the theorem applied to a concrete Stage owning one scene. -/
theorem removeScene_witness :
    (demoStage.removeScene demoScene).2.stage = none ∧
    (demoStage.removeScene demoScene).1.trace
      = [Event.sceneDetached demoScene.id none] := by
  have h := removeScene_clears_backref_before_detach demoStage demoScene
    (by decide) (by decide)
  exact ⟨h.2.2.1, h.2.2.2.2⟩

/-- C6: on an initialized Stage, `setSize(width, height)` resizes every
owned scene in stored order, then the Composer, then both backing buffers,
and emits the resize notification only after all propagation completed (it
is the last effect in the trace); no error is thrown. -/
theorem setSize_order_spec (s : Stage) (w h : Nat)
    (hc : s.composer.isSome) (hcb : s.canvasBuffer.isSome)
    (hgb : s.glBuffer.isSome) :
    ((s.setSize w h).trace =
      (s.scenes.map fun sc => Event.sceneResize sc.id w h) ++
        [Event.composerResize w h, Event.canvasBufferResize w h,
         Event.glBufferResize w h, Event.stageResizeEmitted]) ∧
    ((s.setSize w h).err = none) ∧
    ((s.setSize w h).stage.scenes = s.scenes.map fun sc => sc.setSize w h) := by
  obtain ⟨c, hc⟩ := Option.isSome_iff_exists.mp hc
  obtain ⟨cb, hcb⟩ := Option.isSome_iff_exists.mp hcb
  obtain ⟨gb, hgb⟩ := Option.isSome_iff_exists.mp hgb
  refine ⟨?_, ?_, ?_⟩ <;> simp [Stage.setSize, hc, hcb, hgb]

/-- C6 witness: the theorem applied to a concrete initialized Stage. -/
theorem setSize_order_spec_witness :
    (initedStage.setSize 100 50).err = none ∧
    (initedStage.setSize 100 50).trace =
      [Event.sceneResize 1 100 50, Event.composerResize 100 50,
       Event.canvasBufferResize 100 50, Event.glBufferResize 100 50,
       Event.stageResizeEmitted] := by
  have h := setSize_order_spec initedStage 100 50 (by decide) (by decide)
    (by decide)
  refine ⟨h.2.1, ?_⟩
  rw [h.1]
  decide


/-- The blend steps contributed by the per-scene render loop are exactly the
enabled scenes' buffers, in stored order. -/
theorem render_blend_trace (s : Stage) (d : Nat) (xs : List Scene) :
    ((xs.map fun scene =>
        if scene.properties.enabled then s.renderScene scene d
        else []).flatten).filter Event.isBlend
      = (xs.filter fun sc => sc.properties.enabled).map
          (fun sc => Event.bufferBlended sc.id sc.properties) := by
  induction xs with
  | nil => simp
  | cons x xs ih =>
    rw [List.map_cons, List.flatten_cons, List.filter_append, ih]
    by_cases hx : x.properties.enabled
    · rw [if_pos hx]
      simp [Stage.renderScene, Event.isBlend, hx]
    · rw [if_neg hx]
      simp [hx]

/-- The render-to-buffer steps contributed by the per-scene render loop are
exactly the enabled scenes', in stored order. -/
theorem render_scene_trace (s : Stage) (d : Nat) (xs : List Scene) :
    ((xs.map fun scene =>
        if scene.properties.enabled then s.renderScene scene d
        else []).flatten).filter Event.isSceneRender
      = (xs.filter fun sc => sc.properties.enabled).map
          (fun sc => Event.sceneRendered sc.id d) := by
  induction xs with
  | nil => simp
  | cons x xs ih =>
    rw [List.map_cons, List.flatten_cons, List.filter_append, ih]
    by_cases hx : x.properties.enabled
    · rw [if_pos hx]
      simp [Stage.renderScene, Event.isSceneRender, hx]
    · rw [if_neg hx]
      simp [hx]

/-- The last element of a cons onto a list ending in a singleton. -/
theorem getLast_cons_append (a b : α) (l : List α) :
    (a :: (l ++ [b])).getLast? = some b := by
  rw [show a :: (l ++ [b]) = (a :: l) ++ [b] from rfl]
  exact List.getLast?_concat _

/-- C7: on an initialized Stage, `render(frameData)` throws nothing, mutates
nothing, first clears the Composer to the Stage's background color at full
opacity, flushes to the screen last, and renders and blends exactly the
scenes whose `enabled` property is true, in stored order, each blended with
its own property record; disabled scenes are neither rendered nor
blended. -/
theorem render_enabled_only (s : Stage) (d : Nat) (bg : ColorVal)
    (hc : s.composer.isSome) (hbg : s.backgroundColor = some bg) :
    ((s.render d).err = none) ∧
    ((s.render d).stage = s) ∧
    ((s.render d).trace.head? = some (Event.composerCleared bg 1)) ∧
    ((s.render d).trace.getLast? = some Event.renderedToScreen) ∧
    ((s.render d).trace.filter Event.isBlend
      = (s.scenes.filter fun sc => sc.properties.enabled).map
          (fun sc => Event.bufferBlended sc.id sc.properties)) ∧
    ((s.render d).trace.filter Event.isSceneRender
      = (s.scenes.filter fun sc => sc.properties.enabled).map
          (fun sc => Event.sceneRendered sc.id d)) := by
  obtain ⟨c, hc⟩ := Option.isSome_iff_exists.mp hc
  refine ⟨?_, ?_, ?_, ?_, ?_, ?_⟩
  · simp [Stage.render, hc]
  · simp [Stage.render, hc]
  · simp [Stage.render, hc, hbg]
  · simp only [Stage.render, hc, hbg, Option.getD_some]
    exact getLast_cons_append _ _ _
  · simp only [Stage.render, hc, hbg, Option.getD_some, List.filter_cons,
      List.filter_append, render_blend_trace s d, Event.isBlend]
    simp
  · simp only [Stage.render, hc, hbg, Option.getD_some, List.filter_cons,
      List.filter_append, render_scene_trace s d, Event.isSceneRender]
    simp

/-- C7 witness: on a concrete Stage with one disabled and one enabled scene
exactly one buffer is blended — the enabled scene's. -/
theorem render_enabled_only_witness :
    (renderStage.render 9).err = none ∧
    (renderStage.render 9).trace.filter Event.isBlend
      = [Event.bufferBlended 1 { enabled := true, blend := 0 }] := by
  have h := render_enabled_only renderStage 9 ("#000000") (by decide) (by decide)
  refine ⟨h.1, ?_⟩
  rw [h.2.2.2.2.1]
  decide

/-- C8: `toJSON()` emits exactly \x7bid, name, type, properties\x7d with
`properties` the Stage's property record copied by value (the emitted record
is a value independent of the live Stage, so mutating it cannot affect the
Stage), and reconstructing a Stage from the emitted record and serializing
again yields an identical record. -/
theorem toJSON_roundtrip (s : Stage) :
    (s.toJSON.id = s.id ∧ s.toJSON.name = s.name ∧
      s.toJSON.type = DISPLAY_TYPE_STAGE ∧
      s.toJSON.properties = s.properties) ∧
    ((Stage.fromJSON s.toJSON).toJSON = s.toJSON) :=
  ⟨⟨rfl, rfl, rfl, rfl⟩, rfl⟩

/-- C10: on a Stage on which `init` has not run (no Composer allocated),
`setSize` throws a TypeError, and so does any `update` whose record carries
a width different from the current one, because it triggers `setSize`. -/
theorem update_setSize_need_init (s : Stage) (w h w2 : Nat)
    (u : PartialProps) (hni : s.composer = none) (hw : u.width = some w2)
    (hne : w2 ≠ s.properties.width) :
    ((s.setSize w h).err = some JsError.typeError) ∧
    (((s.update u).1).err = some JsError.typeError) := by
  constructor
  · simp [Stage.setSize, hni]
  · have hch : (displayUpdate s.properties u).2 = true := by
      simp only [displayUpdate, decide_eq_true_eq, ne_eq]
      intro hcontr
      have hwidth := congrArg StageProps.width hcontr
      simp [hw] at hwidth
      exact hne hwidth
    have hws : u.width.isSome := by rw [hw]; rfl
    simp [Stage.update, hch, hws, Stage.setSize, hni]


/-- C10 witness: the theorem applied to a concrete fresh Stage. -/
theorem update_setSize_need_init_witness :
    demoStage.composer = none ∧
    ((demoStage.setSize 100 50).err = some JsError.typeError ∧
      ((demoStage.update { PartialProps.empty with width := some 100 }).1).err
        = some JsError.typeError) :=
  ⟨rfl,
    update_setSize_need_init demoStage 100 50 100
      { PartialProps.empty with width := some 100 } rfl rfl (by decide)⟩

/-- C1 (amended): for every input whose JS `typeof` is not the string
'object' (numbers, strings, booleans, undefined), `loadConfig` raises the
user-visible validation error and performs no mutation at all.  (Null and
arrays are excluded: their `typeof` is 'object', so they pass the check —
see the counterexample.) -/
theorem loadConfig_rejects_nonobject (dLib eLib : List String) (s : Stage)
    (input : ConfigInput) (hwf : input.typeofIsObject = false) :
    ((Stage.loadConfig dLib eLib s input).stage = s) ∧
    ((Stage.loadConfig dLib eLib s input).trace
      = [Event.errorRaised ("Invalid project data.")]) ∧
    ((Stage.loadConfig dLib eLib s input).err = none) := by
  cases input <;>
    first
      | exact ⟨rfl, rfl, rfl⟩
      | simp [ConfigInput.typeofIsObject] at hwf

/-- C1 witness: the amended theorem applied to the input 42. -/
theorem loadConfig_rejects_nonobject_witness :
    (Stage.loadConfig [] [] demoStage (ConfigInput.number 42)).stage
        = demoStage ∧
    (Stage.loadConfig [] [] demoStage (ConfigInput.number 42)).trace
        = [Event.errorRaised ("Invalid project data.")] :=
  ⟨(loadConfig_rejects_nonobject [] [] demoStage (ConfigInput.number 42)
      rfl).1,
   (loadConfig_rejects_nonobject [] [] demoStage (ConfigInput.number 42)
      rfl).2.1⟩

/-- C1 counterexample: an array and null are not well-formed config objects,
yet both pass the `typeof` check; on a Stage owning one scene, loading an
array clears the scene list — a mutation — and raises no validation error,
and loading null clears the scene list and then throws a TypeError. -/
theorem loadConfig_array_mutates :
    ConfigInput.typeofIsObject (ConfigInput.array 0) = true ∧
    demoStage.scenes ≠ [] ∧
    (Stage.loadConfig [] [] demoStage (ConfigInput.array 0)).stage.scenes
        = [] ∧
    (Stage.loadConfig [] [] demoStage (ConfigInput.array 0)).err = none ∧
    Event.errorRaised ("Invalid project data.")
      ∉ (Stage.loadConfig [] [] demoStage (ConfigInput.array 0)).trace ∧
    (Stage.loadConfig [] [] demoStage (ConfigInput.jsNull)).stage.scenes
        = [] ∧
    (Stage.loadConfig [] [] demoStage (ConfigInput.jsNull)).err
        = some JsError.typeError := by
  decide


end Astrofox
